import Mathlib

/-!
Verification of the SafeSpace sandbox manager against its specification.

The Python sources under `safespace_pkg/safespace/` are shallowly embedded:
pure computations become Lean functions, stateful methods become explicit
state-passing functions over record types, and the outcomes of external
effects (HTTP fetches, subprocess exit codes) are passed in as parameters.
Machine floats appearing only as exact decimal constants are modelled as
rationals; Python `int()` truncation is modelled explicitly.
-/

namespace SafeSpace

/- ### SHA-256 (semantics of `hashlib.sha256` used by `artifact_cache.py`)

Bytes are modelled as `List Nat` with each element below 256.  The digest
matches FIPS 180-4: big-endian words, the standard round constants, and the
standard padding. -/

def w32 (n : Nat) : Nat := n % 4294967296

def rotr32 (n x : Nat) : Nat := w32 ((x >>> n) ||| (x <<< (32 - n)))

def smallSig0 (x : Nat) : Nat := rotr32 7 x ^^^ rotr32 18 x ^^^ (x >>> 3)

def smallSig1 (x : Nat) : Nat := rotr32 17 x ^^^ rotr32 19 x ^^^ (x >>> 10)

def bigSig0 (x : Nat) : Nat := rotr32 2 x ^^^ rotr32 13 x ^^^ rotr32 22 x

def bigSig1 (x : Nat) : Nat := rotr32 6 x ^^^ rotr32 11 x ^^^ rotr32 25 x

def chF (x y z : Nat) : Nat := (x &&& y) ^^^ ((x ^^^ 4294967295) &&& z)

def majF (x y z : Nat) : Nat := (x &&& y) ^^^ (x &&& z) ^^^ (y &&& z)

/-- The 64 SHA-256 round constants, written in decimal. -/
def shaK : List Nat :=
  [1116352408, 1899447441, 3049323471, 3921009573, 961987163,
   1508970993, 2453635748, 2870763221, 3624381080, 310598401,
   607225278, 1426881987, 1925078388, 2162078206, 2614888103,
   3248222580, 3835390401, 4022224774, 264347078, 604807628,
   770255983, 1249150122, 1555081692, 1996064986, 2554220882,
   2821834349, 2952996808, 3210313671, 3336571891, 3584528711,
   113926993, 338241895, 666307205, 773529912, 1294757372,
   1396182291, 1695183700, 1986661051, 2177026350, 2456956037,
   2730485921, 2820302411, 3259730800, 3345764771, 3516065817,
   3600352804, 4094571909, 275423344, 430227734, 506948616,
   659060556, 883997877, 958139571, 1322822218, 1537002063,
   1747873779, 1955562222, 2024104815, 2227730452, 2361852424,
   2428436474, 2756734187, 3204031479, 3329325298]

/-- The eight SHA-256 initial hash words, written in decimal. -/
def shaH0 : List Nat :=
  [1779033703, 3144134277, 1013904242, 2773480762,
   1359893119, 2600822924, 528734635, 1541459225]

def toWords : List Nat → List Nat
  | a :: b :: c :: d :: rest => (a * 16777216 + b * 65536 + c * 256 + d) :: toWords rest
  | _ => []

def scheduleStep (ws : List Nat) : List Nat :=
  let n := ws.length
  ws ++ [w32 (smallSig1 (ws.getD (n - 2) 0) + ws.getD (n - 7) 0 +
              smallSig0 (ws.getD (n - 15) 0) + ws.getD (n - 16) 0)]

def schedule : Nat → List Nat → List Nat
  | 0, ws => ws
  | n + 1, ws => schedule n (scheduleStep ws)

def compressStep (st : List Nat) (kw : Nat × Nat) : List Nat :=
  match st with
  | a :: b :: c :: d :: e :: f :: g :: h :: _ =>
    let t1 := w32 (h + bigSig1 e + chF e f g + kw.1 + kw.2)
    let t2 := w32 (bigSig0 a + majF a b c)
    [w32 (t1 + t2), a, b, c, w32 (d + t1), e, f, g]
  | _ => st

def processBlock (hs : List Nat) (block : List Nat) : List Nat :=
  let w := schedule 48 (toWords block)
  let st := (shaK.zip w).foldl compressStep hs
  (hs.zip st).map (fun p => w32 (p.1 + p.2))

def chunks64Go : Nat → List Nat → List (List Nat)
  | 0, _ => []
  | fuel + 1, l => if l = [] then [] else l.take 64 :: chunks64Go fuel (l.drop 64)

def chunks64 (l : List Nat) : List (List Nat) := chunks64Go l.length l

def lenBytes (bitLen : Nat) : List Nat :=
  (List.range 8).map (fun i => (bitLen >>> (8 * (7 - i))) % 256)

def padMessage (msg : List Nat) : List Nat :=
  let padZeros := (119 - (msg.length % 64)) % 64
  msg ++ (128 :: List.replicate padZeros 0) ++ lenBytes (8 * msg.length)

def sha256Words (msg : List Nat) : List Nat :=
  (chunks64 (padMessage msg)).foldl processBlock shaH0

def hexDigit (n : Nat) : Char := if n < 10 then Char.ofNat (48 + n) else Char.ofNat (87 + n)

def word32Hex (n : Nat) : String :=
  String.mk ((List.range 8).map (fun i => hexDigit ((n >>> (28 - 4 * i)) % 16)))

def sha256Hex (msg : List Nat) : String :=
  String.join ((sha256Words msg).map word32Hex)

def strBytes (s : String) : List Nat := s.data.map Char.toNat

example : sha256Hex (strBytes "abc") =
    "ba7816bf8f01cfea414140de5dae2223b00361a396177a9cb410ff61f20015ad" := by rfl

example : sha256Hex [] =
    "e3b0c44298fc1c149afbf4c8996fb92427ae41e4649b934ca495991b7852b855" := by rfl

/- ### `artifact_cache.py`: ContentAddressableCache

The cache state bundles the in-memory artifact index (Python dict, modelled
as an association list in insertion order), the `content/` directory keyed by
hex hash, the single staging file of an in-flight download, and the byte
budget.  File-system writes always succeed in the model; `_save_index` is a
no-op because the index is the state. -/

structure ArtifactMetadata where
  hash : String
  size : Nat
  creationTime : Nat
  accessTime : Nat
  accessCount : Nat
deriving Repr, DecidableEq

structure CacheState where
  index : List (String × ArtifactMetadata)
  content : List (String × List Nat)
  temp : Option (List Nat)
  maxSize : Option Nat
deriving Repr, DecidableEq

/-- Default cache from `get_artifact_cache` (2048 MiB budget). -/
def emptyCache : CacheState :=
  { index := [], content := [], temp := none, maxSize := some 2147483648 }

namespace Cache

/-- `_update_access_time` (artifact_cache.py 173-177): bump the access time
and count of an indexed artifact. -/
def updateAccessTime (st : CacheState) (h : String) (now : Nat) : CacheState :=
  { st with index := st.index.map (fun p =>
      if p.1 = h then (p.1, { p.2 with accessTime := now, accessCount := p.2.accessCount + 1 })
      else p) }

/-- `_get_cache_size` (179-181): total of the indexed sizes. -/
def indexSize (l : List (String × ArtifactMetadata)) : Int :=
  (l.map (fun p => (p.2.size : Int))).sum

/-- Eviction order of `_cleanup` (line 201): Python sorts the dict items by
the key `(access_time, -access_count)`, i.e. oldest access first, ties broken
by larger access count first. -/
def evictBefore (p q : String × ArtifactMetadata) : Prop :=
  p.2.accessTime < q.2.accessTime ∨
    (p.2.accessTime = q.2.accessTime ∧ q.2.accessCount ≤ p.2.accessCount)

instance : DecidableRel evictBefore := by
  intro p q
  unfold evictBefore
  infer_instance

instance : IsTotal (String × ArtifactMetadata) evictBefore := by
  constructor
  intro a b
  unfold evictBefore
  omega

instance : IsTrans (String × ArtifactMetadata) evictBefore := by
  constructor
  intro a b c
  unfold evictBefore
  omega

/-- The sort of `_cleanup` line 201.  Python's sort is stable; the model
sorts by the identical composite key (no property below depends on the
relative order of entries whose whole key ties). -/
def sortEntries (l : List (String × ArtifactMetadata)) : List (String × ArtifactMetadata) :=
  List.insertionSort evictBefore l

/-- Removal loop of `_cleanup` (204-218): walk the sorted entries, stop as
soon as the running size is within the target, and collect what was removed.
Removal of the underlying files succeeds in the model. -/
def evictLoop : List (String × ArtifactMetadata) → Int → Int → List (String × ArtifactMetadata)
  | [], _, _ => []
  | e :: rest, cur, target =>
    if cur ≤ target then [] else e :: evictLoop rest (cur - (e.2.size : Int)) target

/-- `_cleanup` (183-225).  `max_size_bytes` of `None` or `0` is falsy in
Python, so no eviction happens; otherwise entries are evicted in sorted
order until the cache fits in `max_size_bytes - required_space`. -/
def cacheEvict (st : CacheState) (required : Nat) : CacheState :=
  match st.maxSize with
  | none => st
  | some m =>
    if m = 0 then st
    else if indexSize st.index ≤ (m : Int) - (required : Int) then st
    else
      let removed := (evictLoop (sortEntries st.index) (indexSize st.index)
        ((m : Int) - (required : Int))).map Prod.fst
      { st with index := st.index.filter (fun p => !(removed.contains p.1)),
                content := st.content.filter (fun p => !(removed.contains p.1)) }

/-- `put` (227-297): hash the file; on an index hit just bump access stats;
otherwise evict to make room, copy the bytes into `content/`, and append a
fresh metadata record with `access_count = 0` (the dataclass default). -/
def put (st : CacheState) (bs : List Nat) (now : Nat) : String × CacheState :=
  let fileHash := sha256Hex bs
  let fileSize := bs.length
  if (st.index.lookup fileHash).isSome then
    (fileHash, updateAccessTime st fileHash now)
  else
    let st1 := cacheEvict st fileSize
    let meta : ArtifactMetadata :=
      { hash := fileHash, size := fileSize, creationTime := now, accessTime := now,
        accessCount := 0 }
    (fileHash, { st1 with index := st1.index ++ [(fileHash, meta)],
                          content := st1.content ++ [(fileHash, bs)] })

/-- `get` (299-337): on an index hit bump access stats, then hand out the
content file (copied to the output path); an index entry whose content file
is missing is pruned and the call fails. -/
def get (st : CacheState) (h : String) (now : Nat) : Bool × CacheState :=
  if (st.index.lookup h).isNone then (false, st)
  else
    let st1 := updateAccessTime st h now
    if (st1.content.lookup h).isSome then (true, st1)
    else (false, { st1 with index := st1.index.filter (fun p => !(p.1 == h)) })

/-- `contains` (372-394): index membership, repairing the index when the
content file is gone. -/
def contains (st : CacheState) (h : String) : Bool × CacheState :=
  if (st.index.lookup h).isNone then (false, st)
  else if (st.content.lookup h).isNone then
    (false, { st with index := st.index.filter (fun p => !(p.1 == h)) })
  else (true, st)

end Cache

/- ### `artifact_cache.py`: CachedDownloader and VMImageCache -/

/-- Commit phase of `CachedDownloader.download` (581-591): `put` the staging
file, copy it from the cache to the output path via `get`, and drop the
staging file in the `finally` block. -/
def commitDownload (st : CacheState) (bs : List Nat) (now : Nat) : Bool × CacheState :=
  let pr := Cache.put st bs now
  let gr := Cache.get pr.2 pr.1 now
  (gr.1, { gr.2 with temp := none })

/-- Fresh-download phase of `download` (560-599).  `fetched` is the body the
HTTP layer produced (`none` models a `RequestException`, raised before the
staging file is written).  On a hash mismatch the function returns failure
and the `finally` block removes the staging file. -/
def downloadFresh (st : CacheState) (expectedHash : Option String)
    (fetched : Option (List Nat)) (now : Nat) : Bool × CacheState :=
  match fetched with
  | none => (false, st)
  | some bs =>
    let stT := { st with temp := some bs }
    match expectedHash with
    | some e =>
      if sha256Hex bs ≠ e then (false, { stT with temp := none })
      else commitDownload stT bs now
    | none => commitDownload stT bs now

/-- `CachedDownloader.download` (519-599).  `urlHash` is the value of
`_compute_hash_from_url(url)` (a `hash=`/`sha256=` query parameter), passed
in already extracted.  When a hash is known and cached, the artifact is
served from the cache without any download. -/
def download (st : CacheState) (expectedHash urlHash : Option String)
    (fetched : Option (List Nat)) (now : Nat) : Bool × CacheState :=
  let fileHash := match expectedHash with
    | some e => some e
    | none => urlHash
  match fileHash with
  | some h =>
    let cr := Cache.contains st h
    if cr.1 then Cache.get cr.2 h now
    else downloadFresh cr.2 expectedHash fetched now
  | none => downloadFresh st expectedHash fetched now

/-- Sidecar parsing in `VMImageCache.get_vm_image` (647-654): strip the body,
take the first line whose first whitespace-separated token has length 64. -/
def extractSha256Hash (body : String) : Option String :=
  (body.trim.splitOn "\n").findSome? (fun line =>
    match (line.split Char.isWhitespace).filter (fun s => !(s == "")) with
    | [] => none
    | p :: _ => if p.length = 64 then some p else none)

/-- Expected hash computed by `get_vm_image` (637-659): absent when no
sidecar URL is configured, when fetching it raises (`sidecarBody = none`),
or when no 64-character token is found — each of the failure cases only logs
a warning. -/
def getVmImageExpectedHash (sha256Url : Option String) (sidecarBody : Option String) :
    Option String :=
  match sha256Url with
  | none => none
  | some _ =>
    match sidecarBody with
    | none => none
    | some body => extractSha256Hash body

/-- `VMImageCache.get_vm_image` (624-674): resolve the expected hash from the
sidecar, then delegate to `download`. -/
def getVmImage (st : CacheState) (sha256Url : Option String) (sidecarBody : Option String)
    (urlHash : Option String) (fetched : Option (List Nat)) (now : Nat) : Bool × CacheState :=
  download st (getVmImageExpectedHash sha256Url sidecarBody) urlHash fetched now

/-- Image step of `VMManager.setup` (vm.py 160-169): setup aborts right after
this step exactly when `get_vm_image` returned failure; on success it
continues toward disk creation and emulator scripts. -/
def vmSetupFailsAtImageStep (st : CacheState) (sha256Url : Option String)
    (sidecarBody : Option String) (urlHash : Option String) (fetched : Option (List Nat))
    (now : Nat) : Bool :=
  !(getVmImage st sha256Url sidecarBody urlHash fetched now).1

/- ### `resource_manager.py`: workload classification and adaptive budget

The float constants of the source are exact decimal literals, modelled as
the corresponding rationals; Python `int()` truncates toward zero. -/

inductive WorkloadType where
  | light
  | medium
  | heavy
deriving Repr, DecidableEq

/-- `ResourceManager._determine_workload_type` (resource_manager.py 165-177). -/
def determineWorkloadType (cpuLoad memoryLoad : ℚ) : WorkloadType :=
  if cpuLoad > 7/10 ∨ memoryLoad > 8/10 then .heavy
  else if cpuLoad > 3/10 ∨ memoryLoad > 5/10 then .medium
  else .light

/-- Python `int()` on a float: truncation toward zero. -/
def pyTruncInt (q : ℚ) : ℤ := if 0 ≤ q then ⌊q⌋ else ⌈q⌉

/-- `ResourceManager.adaptive_cache_limit` (393-422).  `diskPercent` is
`psutil.disk_usage(...).percent`, `cacheLimitBytes` the persisted base
budget, `totalMemory` the total RAM. -/
def adaptiveCacheLimit (diskPercent : ℚ) (cacheLimitBytes totalMemory : ℤ) : ℤ :=
  if diskPercent > 85 then
    pyTruncInt ((cacheLimitBytes : ℚ) * max (1/10) ((100 - diskPercent) / 15))
  else
    let maxCache := pyTruncInt ((totalMemory : ℚ) * (2/10))
    if diskPercent < 70 then
      min (pyTruncInt ((cacheLimitBytes : ℚ) * min 2 (1 + (70 - diskPercent) / 50))) maxCache
    else cacheLimitBytes

/- ### `state_db.py`: StateDatabase

The SQLite relation `environments` (state_db.py 56-66) is a list of rows in
rowid (insertion) order.  The schema declares `id TEXT PRIMARY KEY` and
`name TEXT` with no UNIQUE constraint on `name`.  The JSON `state` and
`metadata` blobs are modelled structurally (the JSON round-trip is the
identity on them). -/

structure EnvSavedState where
  envVars : List (String × String)
  networkEnabled : Bool
  vmEnabled : Bool
  containerEnabled : Bool
  comprehensiveTestEnabled : Bool
  enhancedDevEnabled : Bool
deriving Repr, DecidableEq

structure EnvMetadata where
  internalMode : Bool
  createdAt : String
  lastSaved : String
deriving Repr, DecidableEq

structure EnvRow where
  id : String
  name : Option String
  rootDir : String
  createdAt : String
  lastAccessed : String
  state : EnvSavedState
  metadata : EnvMetadata
deriving Repr, DecidableEq

namespace StateDatabase

/-- `save_environment` (70-133): update the row whose `id` matches, else
insert a new row.  Only `id` is consulted; the backing `INSERT` succeeds for
any `name` because the schema carries no uniqueness constraint on it. -/
def saveEnvironment (db : List EnvRow) (envId : String) (name : Option String)
    (rootDir : String) (st : EnvSavedState) (md : EnvMetadata) (now : String) :
    Bool × List EnvRow :=
  if db.any (fun r => r.id == envId) then
    (true, db.map (fun r =>
      if r.id == envId then
        { r with name := name, rootDir := rootDir, lastAccessed := now,
                 state := st, metadata := md }
      else r))
  else
    (true, db ++ [{ id := envId, name := name, rootDir := rootDir, createdAt := now,
                    lastAccessed := now, state := st, metadata := md }])

/-- `get_environment` (135-189): fetch by id when given, else by name; the
fetched row is returned with its pre-touch fields while `last_accessed` of
the stored row is set to now. -/
def getEnvironment (db : List EnvRow) (envId name : Option String) (now : String) :
    Option EnvRow × List EnvRow :=
  match envId, name with
  | none, none => (none, db)
  | _, _ =>
    let row : Option EnvRow := match envId with
      | some i => db.find? (fun r => r.id == i)
      | none => db.find? (fun r => r.name == name)
    match row with
    | none => (none, db)
    | some r =>
      (some r, db.map (fun q => if q.id == r.id then { q with lastAccessed := now } else q))

/-- Row order of `list_environments` (191-218): `last_accessed` descending. -/
def moreRecent (a b : EnvRow) : Prop := b.lastAccessed ≤ a.lastAccessed

instance : DecidableRel moreRecent := by
  intro a b
  unfold moreRecent
  infer_instance

/-- `list_environments` (191-218): all rows, most recently accessed first. -/
def listEnvironments (db : List EnvRow) : List EnvRow :=
  List.insertionSort moreRecent db

end StateDatabase

/- ### `network.py`: NetworkIsolation conditions and sudo plumbing -/

/-- The six optional parameters shared by `setup_network_conditions` and
`update_network_conditions` (network.py 354-360, 546-552). -/
structure ConditionArgs where
  latency : Option String
  jitter : Option String
  packetLoss : Option ℚ
  packetCorruption : Option ℚ
  packetReordering : Option ℚ
  bandwidth : Option String
deriving Repr, DecidableEq

def noConditionArgs : ConditionArgs :=
  { latency := none, jitter := none, packetLoss := none, packetCorruption := none,
    packetReordering := none, bandwidth := none }

/-- The condition-simulation fields of a `NetworkIsolation` instance
(network.py 49-57). -/
structure NetworkIsolationState where
  simulateConditions : Bool
  latency : String
  jitter : String
  packetLoss : ℚ
  packetCorruption : ℚ
  packetReordering : ℚ
  bandwidth : String
  currentConditionsActive : Bool
deriving Repr, DecidableEq

/-- The shared parameter-merge prelude (375-387 and 567-579): every supplied
argument overwrites the stored field; absent arguments leave it unchanged. -/
def applyConditionArgs (s : NetworkIsolationState) (a : ConditionArgs) :
    NetworkIsolationState :=
  { s with latency := a.latency.getD s.latency,
           jitter := a.jitter.getD s.jitter,
           packetLoss := a.packetLoss.getD s.packetLoss,
           packetCorruption := a.packetCorruption.getD s.packetCorruption,
           packetReordering := a.packetReordering.getD s.packetReordering,
           bandwidth := a.bandwidth.getD s.bandwidth }

/-- Trailing arguments of the `tc qdisc change ... netem` command built by
`_setup_linux_network_conditions` (427-446).  String tokens are `Sum.inl`;
the percentage numbers that Python formats as `f"{x}%"` are `Sum.inr`.
Python truthiness: a latency/jitter string is applied when non-empty, a
percentage when strictly positive; jitter rides along only when latency is
present. -/
def netemConditionTokens (s : NetworkIsolationState) : List (String ⊕ ℚ) :=
  (if s.latency ≠ "" then
    [Sum.inl "delay", Sum.inl s.latency] ++
      (if s.jitter ≠ "" then [Sum.inl s.jitter] else [])
   else []) ++
  (if s.packetLoss > 0 then [Sum.inl "loss", Sum.inr s.packetLoss] else []) ++
  (if s.packetCorruption > 0 then [Sum.inl "corrupt", Sum.inr s.packetCorruption] else []) ++
  (if s.packetReordering > 0 then [Sum.inl "reorder", Sum.inr s.packetReordering] else [])

/-- State effect of a successful `setup_network_conditions` (354-477): merge
the arguments, enable simulation, reset any previous conditions, apply the
merged fields, and mark conditions active.  The external `tc` invocations
succeed in the model. -/
def setupNetworkConditionsState (s : NetworkIsolationState) (a : ConditionArgs) :
    NetworkIsolationState :=
  let s1 := applyConditionArgs s a
  { s1 with simulateConditions := true, currentConditionsActive := true }

/-- The netem parameters a `setup_network_conditions` call applies: those of
the post-merge state (431-446). -/
def setupAppliedNetemTokens (s : NetworkIsolationState) (a : ConditionArgs) :
    List (String ⊕ ℚ) :=
  netemConditionTokens (applyConditionArgs s a)

/-- `update_network_conditions` (546-586): merge the supplied parameters
into the instance fields first; then, only if conditions are already active,
re-run `setup_network_conditions()` with no arguments; otherwise log and
return failure with the merged fields retained. -/
def updateNetworkConditions (s : NetworkIsolationState) (a : ConditionArgs) :
    Bool × NetworkIsolationState :=
  let s1 := applyConditionArgs s a
  if s1.currentConditionsActive then (true, setupNetworkConditionsState s1 noConditionArgs)
  else (false, s1)

/-- A single-quote character, used by the shell string below. -/
def sq : String := String.singleton (Char.ofNat 39)

/-- The shell command string constructed by `utils.sudo_command` (utils.py
65-78): with a password it is `echo` of the quoted password piped into
`sudo -S`, all inside one string handed to `subprocess.run(shell=True)`. -/
def sudoCommandFull (command : String) (password : Option String) : String :=
  match password with
  | some pw => "echo " ++ sq ++ pw ++ sq ++ " | sudo -S " ++ command
  | none => "sudo " ++ command

/-- `NetworkIsolation._sudo_cmd` (network.py 74-104): without a password no
child is spawned; with one, the child argv is `sudo -S` followed by the
command words and the password plus newline is written to the child's
standard input. -/
def networkSudoCmd (password : Option String) (cmd : List String) :
    Option (List String × String) :=
  match password with
  | none => none
  | some pw => some (["sudo", "-S"] ++ cmd, pw ++ "\n")

/-- Whether `n` is an initial run of `h`. -/
def leadsList (n h : List Char) : Bool :=
  match n, h with
  | [], _ => true
  | _ :: _, [] => false
  | a :: ns, b :: hs => a == b && leadsList ns hs

def occursInAux : List Char → List Char → Bool
  | n, [] => leadsList n []
  | n, c :: t => leadsList n (c :: t) || occursInAux n t

/-- Substring occurrence, used to state where a secret does or does not
appear. -/
def occursIn (needle hay : String) : Bool := occursInAux needle.data hay.data

/- ### `environment.py`: SafeEnvironment lifecycle

A `World` couples the in-memory controller object with the state database
and the set of existing root directories.  External teardown commands
(namespace deletion, process kills) succeed in the model; only their state
effects are kept. -/

structure SafeEnvironment where
  internalMode : Bool
  persistent : Bool
  envId : String
  envName : Option String
  rootDir : String
  envVars : List (String × String)
  networkEnabled : Bool
  hasNetworkIsolation : Bool
  vmEnabled : Bool
  hasVmManager : Bool
  containerEnabled : Bool
  hasContainerManager : Bool
  comprehensiveTestEnabled : Bool
  enhancedDevEnabled : Bool
  hasTestEnvironment : Bool
deriving Repr, DecidableEq

structure World where
  env : SafeEnvironment
  db : List EnvRow
  dirs : List String
deriving Repr, DecidableEq

namespace SafeEnvironment

/-- `save_state` (environment.py 693-737): refuse outside persistent mode;
otherwise upsert the id-keyed row with the current env-var map and facet
flags. -/
def saveState (w : World) (now : String) : Bool × World :=
  if !w.env.persistent then (false, w)
  else
    let st : EnvSavedState :=
      { envVars := w.env.envVars, networkEnabled := w.env.networkEnabled,
        vmEnabled := w.env.vmEnabled, containerEnabled := w.env.containerEnabled,
        comprehensiveTestEnabled := w.env.comprehensiveTestEnabled,
        enhancedDevEnabled := w.env.enhancedDevEnabled }
    let md : EnvMetadata :=
      { internalMode := w.env.internalMode,
        createdAt := ((w.env.envVars.lookup "SAFE_ENV_CREATED_AT").getD now),
        lastSaved := now }
    let r := StateDatabase.saveEnvironment w.db w.env.envId w.env.envName w.env.rootDir
      st md now
    (r.1, { w with db := r.2 })

/-- `setup_network_isolation` (221-246): a second call is a no-op returning
success; otherwise a `NetworkIsolation` is attached and, when its `setup()`
succeeds (`netSetupOk`), the network flag is raised and `NETWORK_ENABLED`
is appended to the on-disk `.env` file — the in-memory `env_vars` map is not
touched. -/
def setupNetworkIsolation (w : World) (netSetupOk : Bool) : Bool × World :=
  if w.env.hasNetworkIsolation then (true, w)
  else
    let e1 := { w.env with hasNetworkIsolation := true }
    if netSetupOk then (true, { w with env := { e1 with networkEnabled := true } })
    else (false, { w with env := e1 })

/-- First teardown paragraph of `cleanup` (630-634): drop the testing
scaffold and clear its flags. -/
def teardownTesting (e : SafeEnvironment) : SafeEnvironment :=
  if (e.comprehensiveTestEnabled || e.enhancedDevEnabled) && e.hasTestEnvironment
  then { e with comprehensiveTestEnabled := false, enhancedDevEnabled := false } else e

/-- Container teardown paragraph of `cleanup` (636-640). -/
def teardownContainer (e : SafeEnvironment) : SafeEnvironment :=
  if e.containerEnabled && e.hasContainerManager
  then { e with containerEnabled := false, hasContainerManager := false } else e

/-- VM teardown paragraph of `cleanup` (642-646). -/
def teardownVm (e : SafeEnvironment) : SafeEnvironment :=
  if e.vmEnabled && e.hasVmManager
  then { e with vmEnabled := false, hasVmManager := false } else e

/-- Network teardown paragraph of `cleanup` (648-652): note that the network
flag is cleared here, before any persistent-state save happens. -/
def teardownNetwork (e : SafeEnvironment) : SafeEnvironment :=
  if e.networkEnabled && e.hasNetworkIsolation
  then { e with networkEnabled := false, hasNetworkIsolation := false } else e

/-- The facet-teardown phase of `cleanup` (630-652) in source order:
testing, container, VM, network. -/
def cleanupFacetTeardown (e : SafeEnvironment) : SafeEnvironment :=
  teardownNetwork (teardownVm (teardownContainer (teardownTesting e)))

/-- `cleanup` (628-691): tear facets down in reverse order — testing,
container, VM, network — clearing each flag; then return early for internal
mode, save state and keep the root for persistent mode, and otherwise kill
holders of the directory and remove it. -/
def cleanup (w : World) (keepDir : Bool) (now : String) : World :=
  let e4 := cleanupFacetTeardown w.env
  let w4 := { w with env := e4 }
  if e4.internalMode && !keepDir then w4
  else if e4.persistent then (saveState w4 now).2
  else if !keepDir then { w4 with dirs := w4.dirs.filter (fun d => !(d == e4.rootDir)) }
  else w4

/-- `load_from_state` (739-792): look the row up by id or name, require the
recorded root directory to exist, and rebuild a persistent instance with the
saved env vars and facet flags; attached component objects start out absent. -/
def loadFromState (w : World) (envId envName : Option String) (now : String) :
    Option SafeEnvironment :=
  match envId, envName with
  | none, none => none
  | _, _ =>
    match (StateDatabase.getEnvironment w.db envId envName now).1 with
    | none => none
    | some row =>
      if !(w.dirs.contains row.rootDir) then none
      else some
        { internalMode := row.metadata.internalMode, persistent := true,
          envId := row.id, envName := row.name, rootDir := row.rootDir,
          envVars := row.state.envVars,
          networkEnabled := row.state.networkEnabled, hasNetworkIsolation := false,
          vmEnabled := row.state.vmEnabled, hasVmManager := false,
          containerEnabled := row.state.containerEnabled, hasContainerManager := false,
          comprehensiveTestEnabled := row.state.comprehensiveTestEnabled,
          enhancedDevEnabled := row.state.enhancedDevEnabled,
          hasTestEnvironment := false }

/-- `list_saved_environments` (794-804). -/
def listSavedEnvironments (w : World) : List EnvRow :=
  StateDatabase.listEnvironments w.db

end SafeEnvironment

/- ### General lemmas about association lists -/

theorem lookup_filter_none {β : Type} (l : List (String × β)) (p : String × β → Bool)
    (k : String) (h : l.lookup k = none) : (l.filter p).lookup k = none := by
  rw [List.lookup_eq_none_iff] at h ⊢
  intro q hq
  exact h q (List.mem_of_mem_filter hq)

theorem lookup_append_self {β : Type} (l : List (String × β)) (k : String) (v : β) :
    ((l ++ [(k, v)]).lookup k).isSome = true := by
  rw [List.lookup_isSome_iff]
  exact ⟨(k, v), by simp, by simp⟩

theorem lookup_append_of_none {β : Type} (l : List (String × β)) (k : String) (v : β)
    (h : l.lookup k = none) : (l ++ [(k, v)]).lookup k = some v := by
  rw [List.lookup_append, h]
  simp

/- ### Claim theorems -/

/-- C8.  Workload classification: for all CPU and memory load fractions the
derived class is `heavy` exactly when cpu > 0.7 or mem > 0.8, otherwise
`medium` exactly when cpu > 0.3 or mem > 0.5, and `light` otherwise
(`ResourceManager._determine_workload_type`). -/
theorem workload_classification (cpu mem : ℚ) :
    (determineWorkloadType cpu mem = .heavy ↔ (cpu > 7/10 ∨ mem > 8/10)) ∧
    (determineWorkloadType cpu mem = .medium ↔
      (¬(cpu > 7/10 ∨ mem > 8/10) ∧ (cpu > 3/10 ∨ mem > 5/10))) ∧
    (determineWorkloadType cpu mem = .light ↔
      (¬(cpu > 7/10 ∨ mem > 8/10) ∧ ¬(cpu > 3/10 ∨ mem > 5/10))) := by
  unfold determineWorkloadType
  by_cases h1 : cpu > 7/10 ∨ mem > 8/10 <;> by_cases h2 : cpu > 3/10 ∨ mem > 5/10 <;>
    simp [h1, h2]

/-- C7, counterexample.  With the disk 90% full and a base budget of
100 MiB, `adaptive_cache_limit` does not land in [33 MiB, 37 MiB]: the
scale factor is (100-90)/15 = 2/3, giving 69905066 bytes (about 66.7 MiB). -/
theorem adaptive_cache_limit_not_in_claimed_interval :
    ¬ (34603008 ≤ adaptiveCacheLimit 90 104857600 8589934592 ∧
       adaptiveCacheLimit 90 104857600 8589934592 ≤ 38797312) := by
  have hv : adaptiveCacheLimit 90 104857600 8589934592 = 69905066 := by
    unfold adaptiveCacheLimit pyTruncInt
    norm_num
  rw [hv]
  omega

/-- C7, amended.  With the disk 90% full and a base budget of 100 MiB
(whatever the total memory, which the over-85% branch never reads),
`adaptive_cache_limit` returns int(100 MiB * 2/3) = 69905066 bytes,
a value in [66 MiB, 67 MiB]. -/
theorem adaptive_cache_limit_two_thirds (totalMemory : ℤ) :
    adaptiveCacheLimit 90 104857600 totalMemory = 69905066 ∧
    69206016 ≤ adaptiveCacheLimit 90 104857600 totalMemory ∧
    adaptiveCacheLimit 90 104857600 totalMemory ≤ 70254592 := by
  have hv : adaptiveCacheLimit 90 104857600 totalMemory = 69905066 := by
    unfold adaptiveCacheLimit pyTruncInt
    norm_num
  rw [hv]
  omega

/-- C4, counterexample.  Two `put` calls with identical contents `b"abc"`
leave the entry's `access_count` at 1, not 2: the first insertion keeps the
dataclass default 0 and only the second (deduplicated) call bumps it. -/
theorem put_dedup_access_count_not_two :
    ((Cache.put (Cache.put emptyCache (strBytes "abc") 1).2 (strBytes "abc") 2).2.index.lookup
      (sha256Hex (strBytes "abc"))).map (fun m => m.accessCount) ≠ some 2 := by
  decide

/-- C4, amended.  Both `put` calls with contents `b"abc"` return the hex key
ba7816bf8f01cfea414140de5dae2223b00361a396177a9cb410ff61f20015ad, exactly
one content file exists afterward, and the entry's `access_count` equals 1
(the first `put` stores 0; only the duplicate `put` increments). -/
theorem leadsList_append_self (n rest : List Char) : leadsList n (n ++ rest) = true := by
  induction n with
  | nil => rfl
  | cons a t ih => simp [leadsList, ih]

theorem occursInAux_of_leads (n h : List Char) (hl : leadsList n h = true) :
    occursInAux n h = true := by
  cases h with
  | nil => simpa [occursInAux] using hl
  | cons c t => simp [occursInAux, hl]

theorem occursInAux_mono (n : List Char) (pre t : List Char) (h : occursInAux n t = true) :
    occursInAux n (pre ++ t) = true := by
  induction pre with
  | nil => exact h
  | cons c p ih => simp [occursInAux, ih]

theorem occursInAux_take (n rest : List Char) : occursInAux n (n ++ rest) = true :=
  occursInAux_of_leads _ _ (leadsList_append_self n rest)

/-- C9, counterexample.  `utils.sudo_command` places the cached secret
inside the constructed shell command string itself: with secret `hunter2`
the command handed to the shell contains the secret verbatim. -/
theorem sudo_secret_in_command_line :
    occursIn "hunter2" (sudoCommandFull "ip link add veth0" (some "hunter2")) = true := by
  decide

/-- C9, amended.  `NetworkIsolation._sudo_cmd` invokes `sudo -S` with the
secret supplied only on the child's standard input and adds nothing but the
constant words `sudo -S` to the argv; `utils.sudo_command`, however, embeds
the secret in the shell command string (`echo` of the quoted secret piped to
`sudo -S`), so commands elevated through it — including `VMManager._sudo_cmd`
— expose the secret in a child's command line. -/
theorem sudo_secret_paths (cmd : List String) (command pw : String) :
    networkSudoCmd (some pw) cmd = some (["sudo", "-S"] ++ cmd, pw ++ "\n") ∧
    occursIn pw (sudoCommandFull command (some pw)) = true := by
  refine ⟨rfl, ?_⟩
  show occursInAux pw.data ("echo " ++ sq ++ pw ++ sq ++ " | sudo -S " ++ command).data = true
  have hd : ("echo " ++ sq ++ pw ++ sq ++ " | sudo -S " ++ command).data
      = "echo ".data ++ (sq.data ++ (pw.data ++ (sq.data ++ (" | sudo -S ".data ++
          command.data)))) := by
    simp [String.data_append]
  rw [hd]
  exact occursInAux_mono _ _ _ (occursInAux_mono _ _ _ (occursInAux_take _ _))

/-- C10.  Calling `update_network_conditions` while no conditions are active
returns failure, yet every parameter supplied in the call is recorded in the
stored fields, and a later `setup_network_conditions()` without arguments
applies exactly those recorded values. -/
theorem update_conditions_inactive_records (s : NetworkIsolationState) (a : ConditionArgs)
    (h : s.currentConditionsActive = false) :
    (updateNetworkConditions s a).1 = false ∧
    (updateNetworkConditions s a).2 = applyConditionArgs s a ∧
    (∀ v, a.latency = some v → (updateNetworkConditions s a).2.latency = v) ∧
    (∀ v, a.jitter = some v → (updateNetworkConditions s a).2.jitter = v) ∧
    (∀ v, a.packetLoss = some v → (updateNetworkConditions s a).2.packetLoss = v) ∧
    (∀ v, a.packetCorruption = some v → (updateNetworkConditions s a).2.packetCorruption = v) ∧
    (∀ v, a.packetReordering = some v → (updateNetworkConditions s a).2.packetReordering = v) ∧
    (∀ v, a.bandwidth = some v → (updateNetworkConditions s a).2.bandwidth = v) ∧
    setupAppliedNetemTokens (updateNetworkConditions s a).2 noConditionArgs =
      netemConditionTokens (applyConditionArgs s a) := by
  have h2 : updateNetworkConditions s a = (false, applyConditionArgs s a) := by
    unfold updateNetworkConditions
    have hact : (applyConditionArgs s a).currentConditionsActive = false := h
    simp [hact]
  rw [h2]
  refine ⟨rfl, rfl, ?_, ?_, ?_, ?_, ?_, ?_, rfl⟩ <;>
    · intro v hv
      simp [applyConditionArgs, hv]

/-- Witness for C10 at a concrete inactive state and a full argument set. -/
theorem update_conditions_inactive_records_witness :
    (NetworkIsolationState.mk false "" "" 0 0 0 "" false).currentConditionsActive = false ∧
    ((updateNetworkConditions (NetworkIsolationState.mk false "" "" 0 0 0 "" false)
        (ConditionArgs.mk (some "100ms") (some "10ms") (some 5) (some 1) (some 2)
          (some "1mbit"))).1 = false ∧
     (updateNetworkConditions (NetworkIsolationState.mk false "" "" 0 0 0 "" false)
        (ConditionArgs.mk (some "100ms") (some "10ms") (some 5) (some 1) (some 2)
          (some "1mbit"))).2 =
       applyConditionArgs (NetworkIsolationState.mk false "" "" 0 0 0 "" false)
         (ConditionArgs.mk (some "100ms") (some "10ms") (some 5) (some 1) (some 2)
           (some "1mbit")) ∧
     (∀ v, (ConditionArgs.mk (some "100ms") (some "10ms") (some 5) (some 1) (some 2)
          (some "1mbit") : ConditionArgs).latency = some v →
        (updateNetworkConditions (NetworkIsolationState.mk false "" "" 0 0 0 "" false)
          (ConditionArgs.mk (some "100ms") (some "10ms") (some 5) (some 1) (some 2)
            (some "1mbit"))).2.latency = v) ∧
     (∀ v, (ConditionArgs.mk (some "100ms") (some "10ms") (some 5) (some 1) (some 2)
          (some "1mbit") : ConditionArgs).jitter = some v →
        (updateNetworkConditions (NetworkIsolationState.mk false "" "" 0 0 0 "" false)
          (ConditionArgs.mk (some "100ms") (some "10ms") (some 5) (some 1) (some 2)
            (some "1mbit"))).2.jitter = v) ∧
     (∀ v, (ConditionArgs.mk (some "100ms") (some "10ms") (some 5) (some 1) (some 2)
          (some "1mbit") : ConditionArgs).packetLoss = some v →
        (updateNetworkConditions (NetworkIsolationState.mk false "" "" 0 0 0 "" false)
          (ConditionArgs.mk (some "100ms") (some "10ms") (some 5) (some 1) (some 2)
            (some "1mbit"))).2.packetLoss = v) ∧
     (∀ v, (ConditionArgs.mk (some "100ms") (some "10ms") (some 5) (some 1) (some 2)
          (some "1mbit") : ConditionArgs).packetCorruption = some v →
        (updateNetworkConditions (NetworkIsolationState.mk false "" "" 0 0 0 "" false)
          (ConditionArgs.mk (some "100ms") (some "10ms") (some 5) (some 1) (some 2)
            (some "1mbit"))).2.packetCorruption = v) ∧
     (∀ v, (ConditionArgs.mk (some "100ms") (some "10ms") (some 5) (some 1) (some 2)
          (some "1mbit") : ConditionArgs).packetReordering = some v →
        (updateNetworkConditions (NetworkIsolationState.mk false "" "" 0 0 0 "" false)
          (ConditionArgs.mk (some "100ms") (some "10ms") (some 5) (some 1) (some 2)
            (some "1mbit"))).2.packetReordering = v) ∧
     (∀ v, (ConditionArgs.mk (some "100ms") (some "10ms") (some 5) (some 1) (some 2)
          (some "1mbit") : ConditionArgs).bandwidth = some v →
        (updateNetworkConditions (NetworkIsolationState.mk false "" "" 0 0 0 "" false)
          (ConditionArgs.mk (some "100ms") (some "10ms") (some 5) (some 1) (some 2)
            (some "1mbit"))).2.bandwidth = v) ∧
     setupAppliedNetemTokens
        (updateNetworkConditions (NetworkIsolationState.mk false "" "" 0 0 0 "" false)
          (ConditionArgs.mk (some "100ms") (some "10ms") (some 5) (some 1) (some 2)
            (some "1mbit"))).2 noConditionArgs =
       netemConditionTokens
         (applyConditionArgs (NetworkIsolationState.mk false "" "" 0 0 0 "" false)
           (ConditionArgs.mk (some "100ms") (some "10ms") (some 5) (some 1) (some 2)
             (some "1mbit")))) :=
  ⟨rfl, update_conditions_inactive_records
    (NetworkIsolationState.mk false "" "" 0 0 0 "" false)
    (ConditionArgs.mk (some "100ms") (some "10ms") (some 5) (some 1) (some 2) (some "1mbit"))
    rfl⟩

/-- C6, counterexample.  The `environments` schema has no UNIQUE constraint
on `name`: saving a second environment with a fresh id under the already
used name `alpha` succeeds and the relation then holds two rows with that
name. -/
theorem state_db_duplicate_name_concrete :
    (StateDatabase.saveEnvironment
      (StateDatabase.saveEnvironment [] "id-1" (some "alpha") "/r1"
        (EnvSavedState.mk [] false false false false false)
        (EnvMetadata.mk false "t" "t") "t1").2
      "id-2" (some "alpha") "/r2"
      (EnvSavedState.mk [] false false false false false)
      (EnvMetadata.mk false "t" "t") "t2").1 = true ∧
    ((StateDatabase.saveEnvironment
      (StateDatabase.saveEnvironment [] "id-1" (some "alpha") "/r1"
        (EnvSavedState.mk [] false false false false false)
        (EnvMetadata.mk false "t" "t") "t1").2
      "id-2" (some "alpha") "/r2"
      (EnvSavedState.mk [] false false false false false)
      (EnvMetadata.mk false "t" "t") "t2").2.filter
        (fun r => r.name == some "alpha")).length = 2 := by
  decide

/-- C6, amended.  Saving a second environment (different id) under an
already-used name is accepted, not rejected: the insert succeeds and the
relation afterwards holds two rows with that non-null name (uniqueness is
enforced on `id` alone). -/
theorem state_db_duplicate_name_allowed (db : List EnvRow) (i n rd : String)
    (st : EnvSavedState) (md : EnvMetadata) (now : String)
    (hid : ∀ r ∈ db, r.id ≠ i)
    (hn : (db.filter (fun r => r.name == some n)).length = 1) :
    (StateDatabase.saveEnvironment db i (some n) rd st md now).1 = true ∧
    ((StateDatabase.saveEnvironment db i (some n) rd st md now).2.filter
        (fun r => r.name == some n)).length = 2 := by
  have hany : db.any (fun r => r.id == i) = false := by
    rw [List.any_eq_false]
    intro r hr
    simpa using hid r hr
  have hsave : StateDatabase.saveEnvironment db i (some n) rd st md now =
      (true, db ++ [EnvRow.mk i (some n) rd now now st md]) := by
    unfold StateDatabase.saveEnvironment
    rw [hany]
    rfl
  rw [hsave]
  refine ⟨rfl, ?_⟩
  rw [List.filter_append, List.length_append, hn]
  simp

/-- Witness for C6 on a one-row database already holding the name. -/
theorem state_db_duplicate_name_allowed_witness :
    (∀ r ∈ [EnvRow.mk "id-1" (some "alpha") "/r1" "t" "t"
        (EnvSavedState.mk [] false false false false false)
        (EnvMetadata.mk false "t" "t")], r.id ≠ "id-2") ∧
    (([EnvRow.mk "id-1" (some "alpha") "/r1" "t" "t"
        (EnvSavedState.mk [] false false false false false)
        (EnvMetadata.mk false "t" "t")].filter
          (fun r => r.name == some "alpha")).length = 1) ∧
    ((StateDatabase.saveEnvironment
        [EnvRow.mk "id-1" (some "alpha") "/r1" "t" "t"
          (EnvSavedState.mk [] false false false false false)
          (EnvMetadata.mk false "t" "t")]
        "id-2" (some "alpha") "/r2" (EnvSavedState.mk [] false false false false false)
        (EnvMetadata.mk false "t" "t") "t2").1 = true ∧
     ((StateDatabase.saveEnvironment
        [EnvRow.mk "id-1" (some "alpha") "/r1" "t" "t"
          (EnvSavedState.mk [] false false false false false)
          (EnvMetadata.mk false "t" "t")]
        "id-2" (some "alpha") "/r2" (EnvSavedState.mk [] false false false false false)
        (EnvMetadata.mk false "t" "t") "t2").2.filter
          (fun r => r.name == some "alpha")).length = 2) :=
  ⟨by decide, by decide,
   state_db_duplicate_name_allowed _ "id-2" "alpha" "/r2"
     (EnvSavedState.mk [] false false false false false)
     (EnvMetadata.mk false "t" "t") "t2" (by decide) (by decide)⟩

theorem put_dedup_access_count_one :
    (Cache.put emptyCache (strBytes "abc") 1).1 =
      "ba7816bf8f01cfea414140de5dae2223b00361a396177a9cb410ff61f20015ad" ∧
    (Cache.put (Cache.put emptyCache (strBytes "abc") 1).2 (strBytes "abc") 2).1 =
      (Cache.put emptyCache (strBytes "abc") 1).1 ∧
    (Cache.put (Cache.put emptyCache (strBytes "abc") 1).2 (strBytes "abc") 2).2.content.length
      = 1 ∧
    ((Cache.put (Cache.put emptyCache (strBytes "abc") 1).2 (strBytes "abc") 2).2.index.lookup
      (sha256Hex (strBytes "abc"))).map (fun m => m.accessCount) = some 1 := by
  refine ⟨by rfl, by rfl, by rfl, by rfl⟩

theorem downloadFresh_mismatch (st : CacheState) (e : String) (bs : List Nat) (now : Nat)
    (hmis : sha256Hex bs ≠ e) :
    downloadFresh st (some e) (some bs) now = (false, { st with temp := none }) := by
  obtain ⟨i, c, t, m⟩ := st
  unfold downloadFresh
  simp [hmis]

theorem download_some_expected (st : CacheState) (e : String) (u : Option String)
    (f : Option (List Nat)) (now : Nat) :
    download st (some e) u f now =
      (if (Cache.contains st e).1 then Cache.get (Cache.contains st e).2 e now
       else downloadFresh (Cache.contains st e).2 (some e) f now) := rfl

theorem contains_of_content_missing (st : CacheState) (e : String)
    (h : st.content.lookup e = none) :
    Cache.contains st e =
      (false, if (st.index.lookup e).isNone then st
              else { st with index := st.index.filter (fun p => !(p.1 == e)) }) := by
  unfold Cache.contains
  by_cases hi : (st.index.lookup e).isNone = true <;> simp [hi, h]

/-- C3.  Verified download is atomic on hash mismatch: when the expected
artifact is not already cached and the fetched bytes hash to something else,
`download` fails, adds nothing for those bytes to either the index or the
content store, and leaves no staging file behind. -/
theorem download_hash_mismatch_atomic (st : CacheState) (e : String) (urlHash : Option String)
    (bs : List Nat) (now : Nat)
    (hmis : sha256Hex bs ≠ e)
    (hidx : st.index.lookup (sha256Hex bs) = none)
    (hcont : st.content.lookup (sha256Hex bs) = none)
    (hexp : st.content.lookup e = none) :
    (download st (some e) urlHash (some bs) now).1 = false ∧
    (download st (some e) urlHash (some bs) now).2.temp = none ∧
    (download st (some e) urlHash (some bs) now).2.index.lookup (sha256Hex bs) = none ∧
    (download st (some e) urlHash (some bs) now).2.content.lookup (sha256Hex bs) = none := by
  rw [download_some_expected, contains_of_content_missing st e hexp]
  by_cases hi : (st.index.lookup e).isNone = true
  · simp only [hi, if_true, Bool.false_eq_true, if_false]
    rw [downloadFresh_mismatch st e bs now hmis]
    exact ⟨rfl, rfl, hidx, hcont⟩
  · simp only [hi, if_false, Bool.false_eq_true]
    rw [downloadFresh_mismatch _ e bs now hmis]
    exact ⟨rfl, rfl, lookup_filter_none _ _ _ hidx, hcont⟩

/-- Witness for C3: empty cache, expected hash of all zeros, fetched bytes
`b"abc"`. -/
theorem download_hash_mismatch_atomic_witness :
    sha256Hex (strBytes "abc") ≠
      "0000000000000000000000000000000000000000000000000000000000000000" ∧
    emptyCache.index.lookup (sha256Hex (strBytes "abc")) = none ∧
    emptyCache.content.lookup (sha256Hex (strBytes "abc")) = none ∧
    emptyCache.content.lookup
      "0000000000000000000000000000000000000000000000000000000000000000" = none ∧
    ((download emptyCache
        (some "0000000000000000000000000000000000000000000000000000000000000000") none
        (some (strBytes "abc")) 7).1 = false ∧
     (download emptyCache
        (some "0000000000000000000000000000000000000000000000000000000000000000") none
        (some (strBytes "abc")) 7).2.temp = none ∧
     (download emptyCache
        (some "0000000000000000000000000000000000000000000000000000000000000000") none
        (some (strBytes "abc")) 7).2.index.lookup (sha256Hex (strBytes "abc")) = none ∧
     (download emptyCache
        (some "0000000000000000000000000000000000000000000000000000000000000000") none
        (some (strBytes "abc")) 7).2.content.lookup (sha256Hex (strBytes "abc")) = none) :=
  ⟨by decide, rfl, rfl, rfl,
   download_hash_mismatch_atomic emptyCache
     "0000000000000000000000000000000000000000000000000000000000000000" none
     (strBytes "abc") 7 (by decide) rfl rfl rfl⟩

theorem evict_index_lookup_none (st : CacheState) (r : Nat) (k : String)
    (h : st.index.lookup k = none) : (Cache.cacheEvict st r).index.lookup k = none := by
  unfold Cache.cacheEvict
  split
  · exact h
  · split
    · exact h
    · split
      · exact h
      · exact lookup_filter_none _ _ _ h

theorem commit_download_succeeds (st : CacheState) (bs : List Nat) (now : Nat)
    (hidx : st.index.lookup (sha256Hex bs) = none) :
    (commitDownload st bs now).1 = true := by
  have h1 : (Cache.cacheEvict st bs.length).index.lookup (sha256Hex bs) = none :=
    evict_index_lookup_none st bs.length _ hidx
  have h2 := lookup_append_of_none (Cache.cacheEvict st bs.length).index (sha256Hex bs)
    (ArtifactMetadata.mk (sha256Hex bs) bs.length now now 0) h1
  have h3 := lookup_append_self (Cache.cacheEvict st bs.length).content (sha256Hex bs) bs
  unfold commitDownload Cache.put Cache.get
  simp [hidx, h2, h3, Cache.updateAccessTime]

/-- C2, counterexample.  When fetching the SHA-256 sidecar fails, no
expected hash is available, yet `get_vm_image` does not fail: the image
download proceeds unverified and succeeds, so `VMManager.setup` continues
toward the emulator instead of aborting with an integrity violation. -/
theorem missing_sidecar_download_proceeds :
    getVmImageExpectedHash (some "https://dl-cdn.alpinelinux.org/alpine.iso.sha256") none =
      none ∧
    (getVmImage emptyCache (some "https://dl-cdn.alpinelinux.org/alpine.iso.sha256") none none
      (some (strBytes "abc")) 5).1 = true ∧
    vmSetupFailsAtImageStep emptyCache
      (some "https://dl-cdn.alpinelinux.org/alpine.iso.sha256") none none
      (some (strBytes "abc")) 5 = false := by
  refine ⟨rfl, by rfl, by rfl⟩

/-- C2, amended.  When the sidecar body cannot be fetched or carries no
64-character token, `get_vm_image` passes no expected hash to `download`:
the image is downloaded without any integrity check and (for a fresh
artifact) the step succeeds, rather than VM setup failing beforehand. -/
theorem missing_sidecar_unverified (st : CacheState) (u : String) (sidecar : Option String)
    (bs : List Nat) (now : Nat)
    (hno : getVmImageExpectedHash (some u) sidecar = none)
    (hidx : st.index.lookup (sha256Hex bs) = none) :
    getVmImage st (some u) sidecar none (some bs) now =
      download st none none (some bs) now ∧
    (getVmImage st (some u) sidecar none (some bs) now).1 = true := by
  have he : getVmImage st (some u) sidecar none (some bs) now =
      download st none none (some bs) now := by
    unfold getVmImage
    rw [hno]
  refine ⟨he, ?_⟩
  rw [he]
  show (commitDownload { st with temp := some bs } bs now).1 = true
  exact commit_download_succeeds _ bs now hidx

/-- Witness for C2 on the empty cache with a failed sidecar fetch. -/
theorem missing_sidecar_unverified_witness :
    getVmImageExpectedHash (some "https://dl-cdn.alpinelinux.org/alpine.iso.sha256") none =
      none ∧
    emptyCache.index.lookup (sha256Hex (strBytes "abc")) = none ∧
    (getVmImage emptyCache (some "https://dl-cdn.alpinelinux.org/alpine.iso.sha256") none none
        (some (strBytes "abc")) 5 =
      download emptyCache none none (some (strBytes "abc")) 5 ∧
     (getVmImage emptyCache (some "https://dl-cdn.alpinelinux.org/alpine.iso.sha256") none none
        (some (strBytes "abc")) 5).1 = true) :=
  ⟨rfl, rfl,
   missing_sidecar_unverified emptyCache "https://dl-cdn.alpinelinux.org/alpine.iso.sha256"
     none (strBytes "abc") 5 rfl rfl⟩

section CleanupLemmas

open SafeEnvironment

theorem cleanupFacetTeardown_spec (e : SafeEnvironment)
    (h1 : e.networkEnabled = true) (h2 : e.hasNetworkIsolation = true) :
    (cleanupFacetTeardown e).internalMode = e.internalMode ∧
    (cleanupFacetTeardown e).persistent = e.persistent ∧
    (cleanupFacetTeardown e).envId = e.envId ∧
    (cleanupFacetTeardown e).envName = e.envName ∧
    (cleanupFacetTeardown e).rootDir = e.rootDir ∧
    (cleanupFacetTeardown e).envVars = e.envVars ∧
    (cleanupFacetTeardown e).networkEnabled = false := by
  obtain ⟨im, pers, id, nm, rd, ev, ne, hni, vme, hvm, ce, hcm, cte, ede, hte⟩ := e
  have h1x : ne = true := h1
  have h2x : hni = true := h2
  subst h1x
  subst h2x
  unfold cleanupFacetTeardown teardownTesting teardownContainer teardownVm teardownNetwork
  split <;> split <;> split <;> simp

theorem cleanup_persistent (w : World) (now : String)
    (hIm : (cleanupFacetTeardown w.env).internalMode = false)
    (hPers : (cleanupFacetTeardown w.env).persistent = true) :
    cleanup w false now =
      (saveState { w with env := cleanupFacetTeardown w.env } now).2 := by
  unfold cleanup
  simp [hIm, hPers]

theorem saveState_persistent (w : World) (now : String) (hp : w.env.persistent = true)
    (hany : (w.db.any (fun r => r.id == w.env.envId)) = false) :
    saveState w now =
      (true, { w with db := w.db ++ [EnvRow.mk w.env.envId w.env.envName w.env.rootDir now now
        (EnvSavedState.mk w.env.envVars w.env.networkEnabled w.env.vmEnabled
          w.env.containerEnabled w.env.comprehensiveTestEnabled w.env.enhancedDevEnabled)
        (EnvMetadata.mk w.env.internalMode
          ((w.env.envVars.lookup "SAFE_ENV_CREATED_AT").getD now) now)] }) := by
  unfold saveState StateDatabase.saveEnvironment
  simp [hp, hany]

theorem any_insertionSort {α : Type} (r : α → α → Prop) [DecidableRel r] (l : List α)
    (p : α → Bool) : (List.insertionSort r l).any p = l.any p := by
  rw [Bool.eq_iff_iff]
  simp only [List.any_eq_true]
  constructor
  · rintro ⟨x, hx, hpx⟩
    exact ⟨x, (List.mem_insertionSort r).mp hx, hpx⟩
  · rintro ⟨x, hx, hpx⟩
    exact ⟨x, (List.mem_insertionSort r).mpr hx, hpx⟩

/-- C1, amended.  For a persistent, non-internal sandbox on which
`setup_network_isolation` succeeded, after `cleanup()` the root directory
still exists, `list_saved_environments()` contains a row with its name, and
`load_from_state` by that name yields a sandbox whose `env` map equals the
original's — but whose `network_enabled` flag is `false`, because `cleanup`
tears the network facet down (clearing the flag) before it saves the
persistent state. -/
theorem persistent_reentry_amended (w : World) (n t1 t2 : String)
    (hp : w.env.persistent = true)
    (hint : w.env.internalMode = false)
    (hname : w.env.envName = some n)
    (hdir : w.dirs.contains w.env.rootDir = true)
    (hnoisol : w.env.hasNetworkIsolation = false)
    (hdb : ∀ r ∈ w.db, r.id ≠ w.env.envId ∧ r.name ≠ some n) :
    (setupNetworkIsolation w true).1 = true ∧
    (cleanup (setupNetworkIsolation w true).2 false t1).dirs.contains
        w.env.rootDir = true ∧
    (listSavedEnvironments
        (cleanup (setupNetworkIsolation w true).2 false t1)).any
        (fun r => r.name == some n) = true ∧
    ∃ e, loadFromState (cleanup (setupNetworkIsolation w true).2 false t1)
        none (some n) t2 = some e ∧
      e.networkEnabled = false ∧ e.envVars = w.env.envVars := by
  have hsetup : setupNetworkIsolation w true =
      (true, { w with env :=
        { w.env with hasNetworkIsolation := true, networkEnabled := true } }) := by
    unfold setupNetworkIsolation
    rw [hnoisol]
    rfl
  rw [hsetup]
  set E : SafeEnvironment :=
    { w.env with hasNetworkIsolation := true, networkEnabled := true } with hEdef
  obtain ⟨hs1, hs2, hs3, hs4, hs5, hs6, hs7⟩ := cleanupFacetTeardown_spec E rfl rfl
  have hIm : (cleanupFacetTeardown E).internalMode = false := hs1.trans hint
  have hPers : (cleanupFacetTeardown E).persistent = true := hs2.trans hp
  have hclean : cleanup ((true, { w with env := E }) : Bool × World).2 false t1 =
      (saveState { w with env := cleanupFacetTeardown E } t1).2 :=
    cleanup_persistent { w with env := E } t1 hIm hPers
  rw [hclean]
  have hany : ((w.db.any (fun r => r.id == (cleanupFacetTeardown E).envId))) = false := by
    rw [List.any_eq_false]
    intro r hr
    rw [hs3]
    simpa using (hdb r hr).1
  rw [saveState_persistent { w with env := cleanupFacetTeardown E } t1 hPers hany]
  refine ⟨rfl, hdir, ?_, ?_⟩
  · unfold listSavedEnvironments StateDatabase.listEnvironments
    rw [any_insertionSort, List.any_append]
    simp only [List.any_cons, List.any_nil, Bool.or_false]
    rw [hs4]
    have hEn : E.envName = some n := hname
    rw [hEn]
    simp
  · have hfindDb : w.db.find? (fun r => r.name == some n) = none := by
      rw [List.find?_eq_none]
      intro x hx
      simpa using (hdb x hx).2
    unfold loadFromState StateDatabase.getEnvironment
    simp only [List.find?_append, hfindDb, Option.none_or, List.find?_cons]
    have hEn : E.envName = some n := hname
    rw [hs4, hEn]
    simp only [beq_self_eq_true]
    rw [hs5]
    have hErd : E.rootDir = w.env.rootDir := rfl
    rw [hErd, hdir]
    simp only [Bool.not_true, Bool.false_eq_true, if_false]
    refine ⟨_, rfl, hs7, hs6.trans rfl⟩

end CleanupLemmas

/-- C1, counterexample.  A persistent sandbox named `alpha` whose network
isolation was set up successfully: reloading it by name after `cleanup()`
yields a sandbox whose `network_enabled` flag is `false`, not `true` —
`cleanup` clears the flag during facet teardown before saving the state. -/
theorem persistent_reload_network_flag_false :
    (SafeEnvironment.loadFromState
        (SafeEnvironment.cleanup
          ((SafeEnvironment.setupNetworkIsolation
              (World.mk
                (SafeEnvironment.mk false true "id-1" (some "alpha") "/tmp/alpha"
                  [("SAFE_ENV_ROOT", "/tmp/alpha")] false false false false false false
                  false false false)
                [] ["/tmp/alpha"])
              true).2)
          false "t1")
        none (some "alpha") "t2").map (fun e => e.networkEnabled) = some false := by
  decide

/-- Witness for C1 on the concrete `alpha` sandbox. -/
theorem persistent_reentry_amended_witness :
    (let w0 : World := World.mk
        (SafeEnvironment.mk false true "id-1" (some "alpha") "/tmp/alpha"
          [("SAFE_ENV_ROOT", "/tmp/alpha")] false false false false false false
          false false false)
        [] ["/tmp/alpha"]
     w0.env.persistent = true ∧ w0.env.internalMode = false ∧
     w0.env.envName = some "alpha" ∧ w0.dirs.contains w0.env.rootDir = true ∧
     w0.env.hasNetworkIsolation = false ∧
     (∀ r ∈ w0.db, r.id ≠ w0.env.envId ∧ r.name ≠ some "alpha") ∧
     ((SafeEnvironment.setupNetworkIsolation w0 true).1 = true ∧
      (SafeEnvironment.cleanup (SafeEnvironment.setupNetworkIsolation w0 true).2 false
        "t1").dirs.contains w0.env.rootDir = true ∧
      (SafeEnvironment.listSavedEnvironments
        (SafeEnvironment.cleanup (SafeEnvironment.setupNetworkIsolation w0 true).2 false
          "t1")).any (fun r => r.name == some "alpha") = true ∧
      ∃ e, SafeEnvironment.loadFromState
          (SafeEnvironment.cleanup (SafeEnvironment.setupNetworkIsolation w0 true).2 false
            "t1") none (some "alpha") "t2" = some e ∧
        e.networkEnabled = false ∧ e.envVars = w0.env.envVars)) := by
  exact ⟨rfl, rfl, rfl, rfl, rfl, by decide,
    persistent_reentry_amended _ "alpha" "t1" "t2" rfl rfl rfl rfl rfl (by decide)⟩

theorem indexSize_nil : Cache.indexSize [] = 0 := rfl

theorem indexSize_cons (e : String × ArtifactMetadata) (l : List (String × ArtifactMetadata)) :
    Cache.indexSize (e :: l) = (e.2.size : Int) + Cache.indexSize l := by
  simp [Cache.indexSize]

theorem indexSize_perm {l1 l2 : List (String × ArtifactMetadata)} (h : l1.Perm l2) :
    Cache.indexSize l1 = Cache.indexSize l2 := by
  unfold Cache.indexSize
  exact (h.map (fun p => (p.2.size : Int))).sum_eq

theorem indexSize_nonneg (l : List (String × ArtifactMetadata)) : 0 ≤ Cache.indexSize l := by
  induction l with
  | nil => simp [indexSize_nil]
  | cons e t ih => rw [indexSize_cons]; positivity

theorem evictLoop_take (l : List (String × ArtifactMetadata)) (cur target : Int) :
    ∃ k, Cache.evictLoop l cur target = l.take k := by
  induction l generalizing cur with
  | nil => exact ⟨0, rfl⟩
  | cons e rest ih =>
    unfold Cache.evictLoop
    by_cases h : cur ≤ target
    · exact ⟨0, by simp [h]⟩
    · obtain ⟨k, hk⟩ := ih (cur - (e.2.size : Int))
      exact ⟨k + 1, by simp [h, hk]⟩

theorem evictLoop_nil_of_le (l : List (String × ArtifactMetadata)) (cur target : Int)
    (h : cur ≤ target) : Cache.evictLoop l cur target = [] := by
  cases l <;> simp [Cache.evictLoop, h]

theorem evictLoop_bound (l : List (String × ArtifactMetadata)) (cur target : Int)
    (ht : 0 ≤ target) (hc : cur = Cache.indexSize l) :
    cur - Cache.indexSize (Cache.evictLoop l cur target) ≤ target := by
  induction l generalizing cur with
  | nil =>
    rw [indexSize_nil] at hc
    subst hc
    simp [Cache.evictLoop, indexSize_nil, ht]
  | cons e rest ih =>
    unfold Cache.evictLoop
    by_cases h : cur ≤ target
    · simp [h, indexSize_nil]
    · have hrest : cur - (e.2.size : Int) = Cache.indexSize rest := by
        rw [indexSize_cons] at hc
        omega
      have := ih (cur - (e.2.size : Int)) hrest
      simp only [h, if_false, indexSize_cons]
      omega

theorem indexSize_filter_partition (l : List (String × ArtifactMetadata))
    (p : String × ArtifactMetadata → Bool) :
    Cache.indexSize (l.filter p) + Cache.indexSize (l.filter (fun x => !(p x)))
      = Cache.indexSize l := by
  induction l with
  | nil => simp [indexSize_nil]
  | cons e t ih =>
    by_cases h : p e = true <;>
      simp [List.filter_cons, h, indexSize_cons] <;> omega

theorem filter_take_keys (l : List (String × ArtifactMetadata)) (k : Nat)
    (hnd : (l.map Prod.fst).Nodup) :
    l.filter (fun p => ((l.take k).map Prod.fst).contains p.1) = l.take k := by
  induction l generalizing k with
  | nil => simp
  | cons x t ih =>
    cases k with
    | zero => simp
    | succ k =>
      simp only [List.take_succ_cons, List.map_cons, List.filter_cons]
      have hx : ((x.1 :: (t.take k).map Prod.fst).contains x.1) = true := by
        simp [List.contains_cons]
      rw [hx]
      simp only [if_true]
      have hnd2 : (t.map Prod.fst).Nodup := (List.nodup_cons.mp hnd).2
      have hxnot : x.1 ∉ t.map Prod.fst := (List.nodup_cons.mp hnd).1
      have hcong : t.filter (fun p => ((x.1 :: (t.take k).map Prod.fst).contains p.1))
          = t.filter (fun p => (((t.take k).map Prod.fst).contains p.1)) := by
        apply List.filter_congr
        intro y hy
        have hyx : (y.1 == x.1) = false := by
          apply beq_eq_false_iff_ne.mpr
          intro he
          exact hxnot (he ▸ List.mem_map.mpr ⟨y, hy, rfl⟩)
        show ((x.1 :: (t.take k).map Prod.fst).contains y.1)
            = (((t.take k).map Prod.fst).contains y.1)
        rw [List.contains_cons, hyx, Bool.false_or]
      rw [hcong, ih k hnd2]

/-- C5.  LRU eviction respects the budget and its order: running `_cleanup`
with cache budget `m` and `required_space` gives a byte target
B = m - required; afterwards the summed sizes of the remaining index entries
are at most B, the removed entries are exactly a prefix (`take k`) of the
entry list sorted by (last-access ascending, access-count descending), that
sort is indeed sorted by this key, and it is a permutation of the index. -/
theorem cache_cleanup_lru (entries : List (String × ArtifactMetadata))
    (cs : List (String × List Nat)) (tp : Option (List Nat)) (m required : Nat)
    (hm : 0 < m) (hreq : required ≤ m)
    (hnd : (entries.map Prod.fst).Nodup) :
    Cache.indexSize (Cache.cacheEvict (CacheState.mk entries cs tp (some m)) required).index
      ≤ (m : Int) - (required : Int) ∧
    (Cache.cacheEvict (CacheState.mk entries cs tp (some m)) required).index =
      entries.filter (fun p =>
        !(((Cache.evictLoop (Cache.sortEntries entries) (Cache.indexSize entries)
            ((m : Int) - (required : Int))).map Prod.fst).contains p.1)) ∧
    (∃ k, Cache.evictLoop (Cache.sortEntries entries) (Cache.indexSize entries)
        ((m : Int) - (required : Int)) = (Cache.sortEntries entries).take k) ∧
    List.Sorted Cache.evictBefore (Cache.sortEntries entries) ∧
    (Cache.sortEntries entries).Perm entries := by
  have hm0 : ¬(m = 0) := by omega
  have hB : (0 : Int) ≤ (m : Int) - (required : Int) := by omega
  have hperm : (Cache.sortEntries entries).Perm entries :=
    List.perm_insertionSort Cache.evictBefore entries
  have hsorted : List.Sorted Cache.evictBefore (Cache.sortEntries entries) :=
    List.sorted_insertionSort Cache.evictBefore entries
  have hsz : Cache.indexSize (Cache.sortEntries entries) = Cache.indexSize entries :=
    indexSize_perm hperm
  obtain ⟨k, hk⟩ := evictLoop_take (Cache.sortEntries entries) (Cache.indexSize entries)
    ((m : Int) - (required : Int))
  by_cases hle : Cache.indexSize entries ≤ (m : Int) - (required : Int)
  · have hremnil : Cache.evictLoop (Cache.sortEntries entries) (Cache.indexSize entries)
        ((m : Int) - (required : Int)) = [] :=
      evictLoop_nil_of_le _ _ _ hle
    have hev : Cache.cacheEvict (CacheState.mk entries cs tp (some m)) required =
        CacheState.mk entries cs tp (some m) := by
      simp only [Cache.cacheEvict]
      simp [hm0, hle]
    rw [hev]
    refine ⟨hle, ?_, ⟨k, hk⟩, hsorted, hperm⟩
    rw [hremnil]
    simp
  · have hev : (Cache.cacheEvict (CacheState.mk entries cs tp (some m)) required).index =
        entries.filter (fun p =>
          !(((Cache.evictLoop (Cache.sortEntries entries) (Cache.indexSize entries)
              ((m : Int) - (required : Int))).map Prod.fst).contains p.1)) := by
      simp only [Cache.cacheEvict]
      simp [hm0, hle]
    have hpart := indexSize_filter_partition entries (fun p =>
      (((Cache.evictLoop (Cache.sortEntries entries) (Cache.indexSize entries)
          ((m : Int) - (required : Int))).map Prod.fst).contains p.1))
    have h2 : (entries.filter (fun p =>
        (((Cache.evictLoop (Cache.sortEntries entries) (Cache.indexSize entries)
            ((m : Int) - (required : Int))).map Prod.fst).contains p.1))).Perm
        ((Cache.sortEntries entries).filter (fun p =>
          (((Cache.evictLoop (Cache.sortEntries entries) (Cache.indexSize entries)
              ((m : Int) - (required : Int))).map Prod.fst).contains p.1))) :=
      hperm.symm.filter _
    have hnds : ((Cache.sortEntries entries).map Prod.fst).Nodup :=
      ((hperm.map Prod.fst).nodup_iff).mpr hnd
    have h3 : (Cache.sortEntries entries).filter (fun p =>
        (((Cache.evictLoop (Cache.sortEntries entries) (Cache.indexSize entries)
            ((m : Int) - (required : Int))).map Prod.fst).contains p.1)) =
        (Cache.sortEntries entries).take k := by
      rw [hk]
      exact filter_take_keys (Cache.sortEntries entries) k hnds
    have h4 : Cache.indexSize (entries.filter (fun p =>
        (((Cache.evictLoop (Cache.sortEntries entries) (Cache.indexSize entries)
            ((m : Int) - (required : Int))).map Prod.fst).contains p.1))) =
        Cache.indexSize (Cache.evictLoop (Cache.sortEntries entries)
          (Cache.indexSize entries) ((m : Int) - (required : Int))) := by
      rw [indexSize_perm h2, h3, ← hk]
    have h5 := evictLoop_bound (Cache.sortEntries entries) (Cache.indexSize entries)
      ((m : Int) - (required : Int)) hB hsz.symm
    refine ⟨?_, hev, ⟨k, hk⟩, hsorted, hperm⟩
    rw [hev]
    omega

/-- Witness for C5: two entries of sizes 5 and 7 against a budget of 8. -/
theorem cache_cleanup_lru_witness :
    (let es : List (String × ArtifactMetadata) :=
      [("a", ArtifactMetadata.mk "a" 5 0 1 0), ("b", ArtifactMetadata.mk "b" 7 0 2 3)]
     (0 < 8 ∧ 0 ≤ 8 ∧ (es.map Prod.fst).Nodup) ∧
     (Cache.indexSize (Cache.cacheEvict (CacheState.mk es [] none (some 8)) 0).index
        ≤ ((8 : Nat) : Int) - ((0 : Nat) : Int) ∧
      (Cache.cacheEvict (CacheState.mk es [] none (some 8)) 0).index =
        es.filter (fun p =>
          !(((Cache.evictLoop (Cache.sortEntries es) (Cache.indexSize es)
              (((8 : Nat) : Int) - ((0 : Nat) : Int))).map Prod.fst).contains p.1)) ∧
      (∃ k, Cache.evictLoop (Cache.sortEntries es) (Cache.indexSize es)
          (((8 : Nat) : Int) - ((0 : Nat) : Int)) = (Cache.sortEntries es).take k) ∧
      List.Sorted Cache.evictBefore (Cache.sortEntries es) ∧
      (Cache.sortEntries es).Perm es)) := by
  exact ⟨⟨by decide, by decide, by decide⟩,
    cache_cleanup_lru
      [("a", ArtifactMetadata.mk "a" 5 0 1 0), ("b", ArtifactMetadata.mk "b" 7 0 2 3)]
      [] none 8 0 (by decide) (by decide) (by decide)⟩

end SafeSpace
